import Mathlib

/-!
Verification of the Trac change-history parsing engine
(`trac_change_history.py`).  The HTML documents the scraper consumes are
modelled as a first-order forest (`Dom`), BeautifulSoup's tag search and
text extraction are modelled over it, and the three parsing stages
(`_parse_change_header`, `_parse_field_changes`, `_parse_comment_text`,
assembled by `_parse_changelog`) are translated function by function.
-/

set_option linter.unusedVariables false

/-- Attributes of an HTML element that the parser inspects.  BeautifulSoup
presents the class attribute as a token list, absent attributes as missing
keys; both conventions are kept. -/
structure Attrs where
  id : Option String := none
  classes : List String := []
  title : Option String := none
  href : Option String := none
  deriving Repr, DecidableEq

/-- An HTML forest: a sequence of sibling nodes, each either a text node or
an element carrying its own child forest. -/
inductive Dom where
  | nil : Dom
  | text (s : String) (rest : Dom) : Dom
  | elem (tag : String) (attrs : Attrs) (children : Dom) (rest : Dom) : Dom
  deriving Repr, DecidableEq

/-- One element node (BeautifulSoup `Tag`): name, attributes, child forest. -/
structure Tag where
  tag : String
  attrs : Attrs
  children : Dom
  deriving Repr, DecidableEq

/-- Whitespace test used to model Python str.strip and the regex class \s. -/
def isWS (c : Char) : Bool := c.isWhitespace

/-- Drop leading whitespace characters. -/
def dropWS (l : List Char) : List Char := l.dropWhile isWS

/-- Drop trailing whitespace characters. -/
def dropWSEnd (l : List Char) : List Char := (dropWS l.reverse).reverse

/-- Python str.strip at the character-list level: trailing then leading. -/
def stripChars (l : List Char) : List Char := dropWS (dropWSEnd l)

/-- Python str.strip. -/
def pyStrip (s : String) : String := String.mk (stripChars s.data)

/-- Does the second list start with the first? -/
def leadsWith : List Char → List Char → Bool
  | [], _ => true
  | _ :: _, [] => false
  | a :: as, b :: bs => a == b && leadsWith as bs

/-- Python substring containment: the pattern occurs somewhere in the list. -/
def hasSub (pat : List Char) : List Char → Bool
  | [] => leadsWith pat []
  | c :: cs => leadsWith pat (c :: cs) || hasSub pat cs

/-- Python `pat in s`. -/
def strContains (s pat : String) : Bool := hasSub pat.data s.data

/-- Python sep.join over a list of strings. -/
def joinSep (sep : String) : List String → String
  | [] => ""
  | [s] => s
  | s :: r => s ++ sep ++ joinSep sep r

/-- The text pieces of a forest, in document order. -/
def Dom.texts : Dom → List String
  | .nil => []
  | .text s r => s :: r.texts
  | .elem _ _ c r => c.texts ++ r.texts

/-- All element descendants of a forest, in pre-order document order; this
is the search space of BeautifulSoup find and find_all. -/
def Dom.allTags : Dom → List Tag
  | .nil => []
  | .text _ r => r.allTags
  | .elem t a c r => ⟨t, a, c⟩ :: (c.allTags ++ r.allTags)

/-- Direct element children of a forest (find_all with recursive=False). -/
def Dom.kids : Dom → List Tag
  | .nil => []
  | .text _ r => r.kids
  | .elem t a c r => ⟨t, a, c⟩ :: r.kids

/-- BeautifulSoup tag.find_all(pred): all matching element descendants. -/
def Tag.findAll (g : Tag) (p : Tag → Bool) : List Tag :=
  (Dom.allTags g.children).filter p

/-- BeautifulSoup tag.find(pred): first matching element descendant. -/
def Tag.findFirst (g : Tag) (p : Tag → Bool) : Option Tag :=
  (Dom.allTags g.children).find? p

/-- BeautifulSoup get_text(sep, strip=True): strip every text piece, drop
the ones that become empty, join the rest with the separator. -/
def getTextSep (sep : String) (g : Tag) : String :=
  joinSep sep (((Dom.texts g.children).map pyStrip).filter (fun p => p != ""))

/-- BeautifulSoup get_text() with no arguments: plain concatenation. -/
def getTextRaw (g : Tag) : String := joinSep "" (Dom.texts g.children)

/-- Leftmost scan: first position where the matcher succeeds. -/
def scanFirst {α : Type} (f : List Char → Option α) : List Char → Option α
  | [] => f []
  | c :: cs =>
    match f (c :: cs) with
    | some a => some a
    | none => scanFirst f cs

/-- Leftmost boolean scan over all positions. -/
def scanAny (f : List Char → Bool) : List Char → Bool
  | [] => f []
  | c :: cs => f (c :: cs) || scanAny f cs

/-- Boolean scan whose matcher also sees the preceding character, for
word-boundary tests. -/
def scanPrev (f : Option Char → List Char → Bool) : Option Char → List Char → Bool
  | prev, [] => f prev []
  | prev, c :: cs => f prev (c :: cs) || scanPrev f (some c) cs

/-- Option scan whose matcher also sees the preceding character. -/
def scanFirstPrev {α : Type} (f : Option Char → List Char → Option α) :
    Option Char → List Char → Option α
  | prev, [] => f prev []
  | prev, c :: cs =>
    match f prev (c :: cs) with
    | some a => some a
    | none => scanFirstPrev f (some c) cs

/-- Decimal value of a digit run. -/
def digitsToNat (l : List Char) : Nat := l.foldl (fun n c => n * 10 + (c.toNat - 48)) 0

/-- Matcher at one position for the comment-number regex: the literal
"comment:" followed by at least one digit; captures the digit run. -/
def cnumAt (l : List Char) : Option Nat :=
  if leadsWith "comment:".data l then
    let d := (l.drop 8).takeWhile Char.isDigit
    if d.isEmpty then none else some (digitsToNat d)
  else none

/-- re.search for comment number over a string: leftmost match. -/
def cnumSearch (s : String) : Option Nat := scanFirst cnumAt s.data

/-- Matcher at one position for the date pattern: four digits, dash, two
digits, dash, two digits. -/
def dateAt (l : List Char) : Bool :=
  match l with
  | a :: b :: c :: d :: h1 :: e :: f :: h2 :: g :: i :: _ =>
    a.isDigit && b.isDigit && c.isDigit && d.isDigit && h1 == '-' &&
      e.isDigit && f.isDigit && h2 == '-' && g.isDigit && i.isDigit
  | _ => false

/-- re.search for the date pattern anywhere in a string. -/
def hasDate (s : String) : Bool := scanAny dateAt s.data

/-- Matcher at one position for the header timestamp fallback pattern:
date, T or space, hours, colon, minutes, optional seconds, optional Z or
signed hour-colon-minute offset; returns the matched characters. -/
def tsAt (l : List Char) : Option (List Char) :=
  match l with
  | a :: b :: c :: d :: s1 :: e :: f :: s2 :: g :: i :: sep :: h1 :: h2 :: col :: m1 :: m2 :: rest =>
    if (a.isDigit && b.isDigit && c.isDigit && d.isDigit && s1 == '-' &&
        e.isDigit && f.isDigit && s2 == '-' && g.isDigit && i.isDigit &&
        (sep == 'T' || sep == ' ') && h1.isDigit && h2.isDigit && col == ':' &&
        m1.isDigit && m2.isDigit) then
      let base := [a, b, c, d, s1, e, f, s2, g, i, sep, h1, h2, col, m1, m2]
      let step :=
        match rest with
        | ':' :: x :: y :: r => if x.isDigit && y.isDigit then ([':', x, y], r) else (([] : List Char), rest)
        | _ => (([] : List Char), rest)
      let tz :=
        match step.2 with
        | 'Z' :: _ => ['Z']
        | p :: x :: y :: q :: u :: v :: _ =>
          if (p == '+' || p == '-') && x.isDigit && y.isDigit && q == ':' && u.isDigit && v.isDigit then
            [p, x, y, q, u, v]
          else []
        | _ => []
      some (base ++ step.1 ++ tz)
    else none
  | _ => none

/-- re.search for the timestamp fallback pattern: leftmost match text. -/
def tsSearch (s : String) : Option String := (scanFirst tsAt s.data).map String.mk

/-- The regex word-character class. -/
def isWordChar (c : Char) : Bool := c.isAlphanum || c == '_'

/-- Matcher at one position for the author fallback regex: word boundary,
the literal "by", one or more whitespace, a captured nonempty run of
non-whitespace. -/
def byAt (prev : Option Char) (l : List Char) : Option (List Char) :=
  let boundary := match prev with | none => true | some c => !isWordChar c
  if boundary && leadsWith "by".data l then
    let after := l.drop 2
    let sp := after.takeWhile isWS
    if sp.isEmpty then none
    else
      let tok := (after.drop sp.length).takeWhile (fun c => !isWS c)
      if tok.isEmpty then none else some tok
  else none

/-- re.search for the author fallback: leftmost match, captured token. -/
def bySearch (s : String) : Option String := (scanFirstPrev byAt none s.data).map String.mk

/-- Matcher at one position for the word-bounded "comment" class regex. -/
def wbCommentAt (prev : Option Char) (l : List Char) : Bool :=
  (match prev with | none => true | some c => !isWordChar c) &&
    leadsWith "comment".data l &&
    (match l.drop 7 with | [] => true | c :: _ => !isWordChar c)

/-- Does a class token match the word-bounded "comment" regex? -/
def hasWordComment (s : String) : Bool := scanPrev wbCommentAt none s.data

/-- Matcher at one position for the anchor regex: the literal sharp sign
then "comment:" then a digit. -/
def hrefCnumAt (l : List Char) : Bool :=
  leadsWith "#comment:".data l &&
    (match l.drop 9 with | c :: _ => c.isDigit | [] => false)

/-- re.search for the comment anchor pattern over an href value. -/
def hasHrefCnum (s : String) : Bool := scanAny hrefCnumAt s.data

/-- Result record of the header interpreter. -/
structure Header where
  comment_num : Option Nat
  timestamp : Option String
  author : Option String
  raw : String
  deriving Repr, DecidableEq

/-- Translation of TracChangeHistoryScraper._parse_change_header: comment
number from a cnum span or a comment anchor, timestamp from a dated title
attribute else a text scan, author from a trac-author span else the
text after "by". -/
def parse_change_header (h3 : Tag) : Header :=
  let raw := getTextSep " " h3
  let cnum_tag :=
    (h3.findFirst (fun g => g.tag == "span" && g.attrs.classes.contains "cnum")).orElse
      (fun _ => h3.findFirst (fun g => g.tag == "a" &&
        (match g.attrs.href with | some h => hasHrefCnum h | none => false)))
  let comment_num :=
    match cnum_tag with
    | some g => cnumSearch (getTextRaw g)
    | none => none
  let time_tag := h3.findFirst (fun g => g.tag == "a" &&
    (match g.attrs.title with | some t => hasDate t | none => false))
  let timestamp :=
    match time_tag with
    | some g => g.attrs.title.map pyStrip
    | none => tsSearch raw
  let author_tag := h3.findFirst (fun g => g.tag == "span" &&
    g.attrs.classes.any (fun t => strContains t "trac-author"))
  let author :=
    match author_tag with
    | some g => some (getTextSep "" g)
    | none => bySearch raw
  ⟨comment_num, timestamp, author, raw⟩

/-- One field mutation, as the dict built inside _parse_field_changes. -/
structure FieldChange where
  field : Option String
  action : Option String
  old_value : Option String
  new_value : Option String
  deriving Repr, DecidableEq

/-- The classification chain of _parse_field_changes, over the item's
rendered text and the stripped texts of its em descendants. -/
def mkEntry (field : Option String) (t : String) (ems : List String) : FieldChange :=
  if strContains t "changed from" = true ∧ 2 ≤ ems.length then
    ⟨field, some "changed", ems[0]?, ems[1]?⟩
  else if strContains t "set to" = true ∧ ems ≠ [] then
    ⟨field, some "set", none, ems[0]?⟩
  else if strContains t "deleted" = true then
    ⟨field, some "deleted", ems[0]?, none⟩
  else if ems ≠ [] then
    ⟨field, some "modified", if 1 < ems.length then ems[0]? else none, ems.getLast?⟩
  else ⟨field, none, none, none⟩

/-- Stripped text of the first strong descendant, when there is one. -/
def fieldNameOf (li : Tag) : Option String :=
  (li.findFirst (fun g => g.tag == "strong")).map (fun g => getTextSep "" g)

/-- Stripped texts of all em descendants, in document order. -/
def emTexts (li : Tag) : List String :=
  (li.findAll (fun g => g.tag == "em")).map (fun g => getTextSep "" g)

/-- The item's rendered text, get_text with a space separator and strip. -/
def liText (li : Tag) : String := getTextSep " " li

/-- The entry dict built for one list item. -/
def entryOf (li : Tag) : FieldChange := mkEntry (fieldNameOf li) (liText li) (emTexts li)

/-- Python truthiness of entry field: present and non-empty. -/
def fieldTruthy (e : FieldChange) : Bool :=
  match e.field with
  | some s => s != ""
  | none => false

/-- The direct li children of a ul (find_all li with recursive=False). -/
def lisOf (u : Tag) : List Tag := (Dom.kids u.children).filter (fun g => g.tag == "li")

/-- Translation of TracChangeHistoryScraper._parse_field_changes. -/
def parse_field_changes (u : Tag) : List FieldChange :=
  (lisOf u).foldl (fun acc li => if fieldTruthy (entryOf li) then acc ++ [entryOf li] else acc) []

/-- Is this a div whose class list carries the word-bounded comment token? -/
def isCommentDiv (g : Tag) : Bool :=
  g.tag == "div" && g.attrs.classes.any hasWordComment

/-- Translation of TracChangeHistoryScraper._parse_comment_text. -/
def parse_comment_text (comment_div : Option Tag) : String :=
  match comment_div with
  | none => ""
  | some g => getTextSep "\n" g

/-- One assembled change event, as the dict built in _parse_changelog. -/
structure Event where
  comment_num : Option Nat
  timestamp : Option String
  author : Option String
  field_changes : List FieldChange
  comment : String
  deriving Repr, DecidableEq

/-- The block predicate of _parse_changelog: a div or li whose class list
contains "change" and whose id begins with "trac-change". -/
def isChangeBlock (g : Tag) : Bool :=
  (g.tag == "div" || g.tag == "li") && g.attrs.classes.contains "change" &&
    leadsWith "trac-change".data (g.attrs.id.getD "").data

/-- soup.find(id="changelog"): first element with that id. -/
def findChangelog (soup : Dom) : Option Tag :=
  (Dom.allTags soup).find? (fun g => g.attrs.id == some "changelog")

/-- The search space for blocks: descendants of the changelog element when
present, else the whole document. -/
def rootTags (soup : Dom) : List Tag :=
  match findChangelog soup with
  | some g => Dom.allTags g.children
  | none => Dom.allTags soup

/-- The located change blocks, in document order. -/
def change_blocks (soup : Dom) : List Tag := (rootTags soup).filter isChangeBlock

/-- Assembly of one event from one block, as in the loop body of
_parse_changelog. -/
def buildEvent (block : Tag) : Event :=
  let hdr := (block.findFirst (fun g => g.tag == "h3" && g.attrs.classes.contains "change")).map
    parse_change_header
  let ul := block.findFirst (fun g => g.tag == "ul" && g.attrs.classes.contains "changes")
  let comment_div := block.findFirst isCommentDiv
  { comment_num := match hdr with | some h => h.comment_num | none => none
    timestamp := match hdr with | some h => h.timestamp | none => none
    author := match hdr with | some h => h.author | none => none
    field_changes := match ul with | some u => parse_field_changes u | none => []
    comment := match comment_div with | some d => parse_comment_text (some d) | none => "" }

/-- Python truthiness of the retention test of _parse_changelog. -/
def keepEvent (e : Event) : Bool := !e.field_changes.isEmpty || e.comment != ""

/-- Translation of TracChangeHistoryScraper._parse_changelog. -/
def parse_changelog (soup : Dom) : List Event :=
  (change_blocks soup).foldl
    (fun evs b => if keepEvent (buildEvent b) then evs ++ [buildEvent b] else evs) []

/-- Heading carrying change-indicator vocabulary; used below to compare the
code's locator with the layered one the specification describes. -/
def headingIndicator (h : Tag) : Bool :=
  h.tag == "h3" && (strContains (getTextRaw h) "Changed" || strContains (getTextRaw h) "comment")

/-- Modelled from the spec: the locator's last tier accepts the parent
element of any heading whose text contains change-indicator vocabulary;
stated only for comparison with the code's single-query locator. -/
def specTier3Parents (soup : Dom) : List Tag :=
  (Dom.allTags soup).filter (fun g => (Dom.kids g.children).any headingIndicator)

/-- Empty attribute set. -/
def attrsNone : Attrs := ⟨none, [], none, none⟩

/-- Child forest of the scenario list item: a strong field name, the verb
text, and two em value tokens. -/
def liC4kids : Dom :=
  Dom.elem "strong" attrsNone (Dom.text "Component" Dom.nil)
    (Dom.text " changed from "
      (Dom.elem "em" attrsNone (Dom.text "libavcodec" Dom.nil)
        (Dom.text " to " (Dom.elem "em" attrsNone (Dom.text "libavformat" Dom.nil) Dom.nil))))

/-- The scenario list item as a tag. -/
def liC4 : Tag := ⟨"li", attrsNone, liC4kids⟩

/-- The scenario change block: plain-text heading, one list item, no
comment region. -/
def blockC4 : Tag :=
  ⟨"div", ⟨some "trac-change-3", ["change"], none, none⟩,
    Dom.elem "h3" ⟨none, ["change"], none, none⟩
      (Dom.text "comment:3 Changed 2024-01-15T10:00:00Z by alice" Dom.nil)
      (Dom.elem "ul" ⟨none, ["changes"], none, none⟩
        (Dom.elem "li" attrsNone liC4kids Dom.nil) Dom.nil)⟩

/-- The scenario document: a changelog container holding the block. -/
def soupC4 : Dom :=
  Dom.elem "div" ⟨some "changelog", [], none, none⟩
    (Dom.elem blockC4.tag blockC4.attrs blockC4.children Dom.nil) Dom.nil

/-- The event the code produces for the scenario block. -/
def evC4 : Event :=
  ⟨none, some "2024-01-15T10:00:00Z", some "alice",
    [⟨some "Component", some "changed", some "libavcodec", some "libavformat"⟩], ""⟩

/-- The event the specification scenario promises for the same block. -/
def evC4claimed : Event :=
  ⟨some 3, some "2024-01-15T10:00:00Z", some "alice",
    [⟨some "Component", some "changed", some "libavcodec", some "libavformat"⟩], ""⟩

/-- A comment region holding one paragraph. -/
def commentDivDom : Dom :=
  Dom.elem "div" ⟨none, ["comment", "searchable"], none, none⟩
    (Dom.elem "p" attrsNone (Dom.text "Looks good to me." Dom.nil) Dom.nil) Dom.nil

/-- A comment-only change block. -/
def blockC1 : Tag := ⟨"div", ⟨some "trac-change-1", ["change"], none, none⟩, commentDivDom⟩

/-- A document with a changelog container holding the comment-only block. -/
def soupC1 : Dom :=
  Dom.elem "div" ⟨some "changelog", [], none, none⟩
    (Dom.elem "div" ⟨some "trac-change-1", ["change"], none, none⟩ commentDivDom Dom.nil) Dom.nil

/-- A document with no changelog container but a change block at top level. -/
def soupC5 : Dom :=
  Dom.elem "div" ⟨some "trac-change-1", ["change"], none, none⟩ commentDivDom Dom.nil

/-- A document with no history at all. -/
def soupEmptyDoc : Dom := Dom.elem "p" attrsNone (Dom.text "nothing here" Dom.nil) Dom.nil

/-- A document whose only change evidence is a heading with change
vocabulary inside an untagged parent div. -/
def soupC3 : Dom :=
  Dom.elem "div" attrsNone
    (Dom.elem "h3" attrsNone (Dom.text "Changed 2024-01-15 by bob" Dom.nil) Dom.nil) Dom.nil

/-- A list item with no strong field-name marker. -/
def liNoStrong : Tag := ⟨"li", attrsNone, Dom.text "orphan note" Dom.nil⟩

/-- Child forest of a well-formed set-to list item. -/
def liGoodKids : Dom :=
  Dom.elem "strong" attrsNone (Dom.text "Priority" Dom.nil)
    (Dom.text " set to " (Dom.elem "em" attrsNone (Dom.text "high" Dom.nil) Dom.nil))

/-- A field-change list holding one malformed and one well-formed item. -/
def ulC7 : Tag :=
  ⟨"ul", ⟨none, ["changes"], none, none⟩,
    Dom.elem "li" attrsNone (Dom.text "orphan note" Dom.nil)
      (Dom.elem "li" attrsNone liGoodKids Dom.nil)⟩

/-- A two-paragraph comment region whose second paragraph has surrounding
whitespace, and a second style marker next to the comment token. -/
def dC9 : Tag :=
  ⟨"div", ⟨none, ["comment", "searchable"], none, none⟩,
    Dom.elem "p" attrsNone (Dom.text "Para one." Dom.nil)
      (Dom.elem "p" attrsNone (Dom.text "  Para two.  " Dom.nil) Dom.nil)⟩

/-- A change block holding only that comment region. -/
def blockC9 : Tag :=
  ⟨"div", ⟨some "trac-change-2", ["change"], none, none⟩,
    Dom.elem "div" ⟨none, ["comment", "searchable"], none, none⟩ dC9.children Dom.nil⟩

/-- A list item with a named marker, no em tokens and no verb text. -/
def liC10ok : Tag := ⟨"li", attrsNone, Dom.elem "strong" attrsNone (Dom.text "Status" Dom.nil) Dom.nil⟩

/-- A field-change list holding only that item. -/
def ulC10ok : Tag :=
  ⟨"ul", ⟨none, ["changes"], none, none⟩,
    Dom.elem "li" attrsNone (Dom.elem "strong" attrsNone (Dom.text "Status" Dom.nil) Dom.nil) Dom.nil⟩

/-- A list item whose strong marker renders as whitespace only. -/
def liC10bad : Tag := ⟨"li", attrsNone, Dom.elem "strong" attrsNone (Dom.text " " Dom.nil) Dom.nil⟩

/-- A field-change list holding only the whitespace-marker item. -/
def ulC10bad : Tag :=
  ⟨"ul", ⟨none, ["changes"], none, none⟩,
    Dom.elem "li" attrsNone (Dom.elem "strong" attrsNone (Dom.text " " Dom.nil) Dom.nil) Dom.nil⟩

/-- A heading that is a single text node, for the header totality claim. -/
def pureH3 (a : Attrs) (s : String) : Tag := ⟨"h3", a, Dom.text s Dom.nil⟩


/-- Accumulating append under a guard is filtering a mapped list. -/
theorem foldl_append_filter {α β : Type} (f : α → β) (q : β → Bool) (l : List α) :
    ∀ init : List β,
      l.foldl (fun acc b => if q (f b) then acc ++ [f b] else acc) init
        = init ++ (l.map f).filter q := by
  induction l with
  | nil => intro init; simp
  | cons a t ih =>
    intro init
    cases h : q (f a) <;> simp [h, ih]

/-- The assembled list is the retained image of the block list. -/
theorem parse_changelog_eq (soup : Dom) :
    parse_changelog soup = ((change_blocks soup).map buildEvent).filter keepEvent := by
  unfold parse_changelog
  simpa using foldl_append_filter buildEvent keepEvent (change_blocks soup) []

/-- The field-change list is the retained image of the item list. -/
theorem parse_field_changes_eq (u : Tag) :
    parse_field_changes u = ((lisOf u).map entryOf).filter fieldTruthy := by
  unfold parse_field_changes
  simpa using foldl_append_filter entryOf fieldTruthy (lisOf u) []

/-- The retention test, read back as a proposition. -/
theorem keepEvent_iff (e : Event) :
    keepEvent e = true ↔ e.field_changes ≠ [] ∨ e.comment ≠ "" := by
  simp [keepEvent, List.isEmpty_iff, bne_iff_ne]

/-- The field truthiness test, read back as a proposition. -/
theorem fieldTruthy_iff (e : FieldChange) :
    fieldTruthy e = true ↔ ∃ s, e.field = some s ∧ s ≠ "" := by
  cases h : e.field <;> simp [fieldTruthy, h, bne_iff_ne]

/-- The classification never touches the field slot. -/
theorem mkEntry_field (f : Option String) (t : String) (ems : List String) :
    (mkEntry f t ems).field = f := by
  unfold mkEntry
  split_ifs <;> rfl

/-- C1: for every change block located in the document, the assembled
ChangeEvent appears in the returned list if and only if its field_changes
list is non-empty or its comment text is a non-empty string; a block with
neither contributes no element (and the parse is total, so no error). -/
theorem c1_retention (soup : Dom) (b : Tag) (hb : b ∈ change_blocks soup) :
    buildEvent b ∈ parse_changelog soup ↔
      (buildEvent b).field_changes ≠ [] ∨ (buildEvent b).comment ≠ "" := by
  rw [parse_changelog_eq]
  constructor
  · intro h
    exact (keepEvent_iff _).mp (List.mem_filter.mp h).2
  · intro h
    exact List.mem_filter.mpr ⟨List.mem_map_of_mem _ hb, (keepEvent_iff _).mpr h⟩

/-- Witness for C1 on a concrete comment-only block. -/
theorem c1_retention_witness :
    blockC1 ∈ change_blocks soupC1 ∧
      (buildEvent blockC1 ∈ parse_changelog soupC1 ↔
        (buildEvent blockC1).field_changes ≠ [] ∨ (buildEvent blockC1).comment ≠ "") :=
  ⟨by decide, c1_retention soupC1 blockC1 (by decide)⟩

/-- The guard of the changed-from branch. -/
def condChanged (li : Tag) : Prop :=
  strContains (liText li) "changed from" = true ∧ 2 ≤ (emTexts li).length

/-- The guard of the set-to branch. -/
def condSet (li : Tag) : Prop :=
  strContains (liText li) "set to" = true ∧ emTexts li ≠ []

/-- The guard of the deleted branch. -/
def condDeleted (li : Tag) : Prop := strContains (liText li) "deleted" = true

instance (li : Tag) : Decidable (condChanged li) := by unfold condChanged; infer_instance

instance (li : Tag) : Decidable (condSet li) := by unfold condSet; infer_instance

instance (li : Tag) : Decidable (condDeleted li) := by unfold condDeleted; infer_instance

/-- C2: the action of a list item is classified by substring search in
priority order — changed-from with two tokens, else set-to with one token,
else deleted, else the modified fallback — with the stated value
assignments, and the fallback never fires when a recognized verb phrase is
present with sufficient tokens. -/
theorem c2_classification (li : Tag) :
    (∀ v w r, emTexts li = v :: w :: r → strContains (liText li) "changed from" = true →
      (entryOf li).action = some "changed" ∧ (entryOf li).old_value = some v ∧
        (entryOf li).new_value = some w) ∧
    (¬ condChanged li → ∀ v r, emTexts li = v :: r → strContains (liText li) "set to" = true →
      (entryOf li).action = some "set" ∧ (entryOf li).old_value = none ∧
        (entryOf li).new_value = some v) ∧
    (¬ condChanged li → ¬ condSet li → strContains (liText li) "deleted" = true →
      (entryOf li).action = some "deleted" ∧ (entryOf li).old_value = (emTexts li)[0]? ∧
        (entryOf li).new_value = none) ∧
    (¬ condChanged li → ¬ condSet li → ¬ condDeleted li → emTexts li ≠ [] →
      (entryOf li).action = some "modified" ∧ (entryOf li).new_value = (emTexts li).getLast? ∧
        (entryOf li).old_value = (if 1 < (emTexts li).length then (emTexts li)[0]? else none)) ∧
    ((condChanged li ∨ condSet li ∨ condDeleted li) → (entryOf li).action ≠ some "modified") := by
  unfold condChanged condSet condDeleted entryOf mkEntry
  refine ⟨?_, ?_, ?_, ?_, ?_⟩
  · intro v w r he hc
    rw [he, if_pos ⟨hc, by simp⟩]
    simp
  · intro hn v r he hs
    rw [if_neg hn, if_pos ⟨hs, by rw [he]; simp⟩, he]
    simp
  · intro hn1 hn2 hd
    rw [if_neg hn1, if_neg hn2, if_pos hd]
    simp
  · intro hn1 hn2 hn3 hne
    rw [if_neg hn1, if_neg hn2, if_neg hn3, if_pos hne]
    simp
  · intro h
    split_ifs with a b c d <;> simp <;> tauto

/-- Witness for C2 on the concrete changed-from scenario item. -/
theorem c2_classification_witness :
    (entryOf liC4).action = some "changed" ∧ (entryOf liC4).old_value = some "libavcodec" ∧
      (entryOf liC4).new_value = some "libavformat" :=
  (c2_classification liC4).1 "libavcodec" "libavformat" [] (by decide) (by decide)

/-- C3 counterexample: a document whose only change evidence is a heading
with change vocabulary inside a parent element — the tier the spec
describes would accept that parent, but the locator returns nothing. -/
theorem c3_locator_counterexample :
    specTier3Parents soupC3 ≠ [] ∧ change_blocks soupC3 = [] ∧ parse_changelog soupC3 = [] :=
  ⟨by decide, by decide, by decide⟩

/-- C3 amended: the locator performs exactly one query, with no fallback
tiers — an element is located iff it lies under the search root, is a div
or li, carries the class token "change", and its id begins with the
change-id prefix. -/
theorem c3_locator_amended (soup : Dom) (b : Tag) :
    b ∈ change_blocks soup ↔
      b ∈ rootTags soup ∧ (b.tag = "div" ∨ b.tag = "li") ∧
        b.attrs.classes.contains "change" = true ∧
        leadsWith "trac-change".data (b.attrs.id.getD "").data = true := by
  unfold change_blocks isChangeBlock
  rw [List.mem_filter]
  simp [Bool.and_eq_true, Bool.or_eq_true, beq_iff_eq, and_assoc]

/-- C4 counterexample: on the scenario block with a plain-text heading, the
parser does not return the promised event — the comment number is not
recovered from the heading text. -/
theorem c4_scenario_counterexample :
    parse_changelog soupC4 ≠ [evC4claimed] ∧ (buildEvent blockC4).comment_num = none :=
  ⟨by decide, by decide⟩

/-- C4 amended: the scenario block yields exactly one event with timestamp,
author, and the changed field as promised, but with an absent comment
number, because the header interpreter only recovers a comment number from
a cnum span or a comment anchor, never from the raw heading text. -/
theorem c4_scenario_amended : parse_changelog soupC4 = [evC4] := by decide

/-- C5 counterexample: a document lacking the history container but holding
a change block elsewhere — parse falls back to the whole document as the
search root and returns a non-empty list. -/
theorem c5_no_container_counterexample :
    findChangelog soupC5 = none ∧ parse_changelog soupC5 ≠ [] :=
  ⟨by decide, by decide⟩

/-- C5 amended: when the history container is absent the whole document
becomes the search root and parse still returns (no error); if moreover no
change block is found anywhere, the result is the empty list. -/
theorem c5_no_container_amended (soup : Dom)
    (h1 : findChangelog soup = none)
    (h2 : (Dom.allTags soup).filter isChangeBlock = []) :
    parse_changelog soup = [] := by
  have hb : change_blocks soup = [] := by
    unfold change_blocks rootTags
    rw [h1]
    exact h2
  rw [parse_changelog_eq, hb]
  rfl

/-- Witness for the amended C5 on a concrete history-free document. -/
theorem c5_no_container_amended_witness :
    findChangelog soupEmptyDoc = none ∧ parse_changelog soupEmptyDoc = [] :=
  ⟨by decide, c5_no_container_amended soupEmptyDoc (by decide) (by decide)⟩

/-- C6: the returned list is the in-order image of the retained blocks, so
the i-th retained event comes from the i-th qualifying block, the length
equals the number of qualifying blocks, and within one event the
field_changes list is the in-order image of the retained list items. -/
theorem c6_document_order (soup : Dom) :
    parse_changelog soup = ((change_blocks soup).map buildEvent).filter keepEvent ∧
    parse_changelog soup =
      ((change_blocks soup).filter (fun b => keepEvent (buildEvent b))).map buildEvent ∧
    (parse_changelog soup).length =
      ((change_blocks soup).filter (fun b => keepEvent (buildEvent b))).length ∧
    ∀ u : Tag, parse_field_changes u = ((lisOf u).map entryOf).filter fieldTruthy := by
  have h2 : parse_changelog soup =
      ((change_blocks soup).filter (fun b => keepEvent (buildEvent b))).map buildEvent := by
    rw [parse_changelog_eq, List.filter_map]
    rfl
  refine ⟨parse_changelog_eq soup, h2, ?_, parse_field_changes_eq⟩
  rw [h2, List.length_map]

/-- C7: a list item without a strong field-name marker contributes nothing,
the other items are still parsed (the parse is total over all items), and
no emitted FieldChange ever lacks a field name. -/
theorem c7_malformed_item (u : Tag) :
    (∀ e ∈ parse_field_changes u, ∃ s, e.field = some s ∧ s ≠ "") ∧
    (∀ li ∈ lisOf u, li.findFirst (fun g => g.tag == "strong") = none →
      (entryOf li).field = none ∧ entryOf li ∉ parse_field_changes u) := by
  have h1 : ∀ e ∈ parse_field_changes u, ∃ s, e.field = some s ∧ s ≠ "" := by
    intro e he
    rw [parse_field_changes_eq] at he
    exact (fieldTruthy_iff e).mp (List.mem_filter.mp he).2
  refine ⟨h1, ?_⟩
  intro li hli hstrong
  have hnone : fieldNameOf li = none := by
    unfold fieldNameOf
    rw [hstrong]
    rfl
  have hf : (entryOf li).field = none := by
    unfold entryOf
    rw [mkEntry_field, hnone]
  refine ⟨hf, fun hmem => ?_⟩
  obtain ⟨s, hs, _⟩ := h1 (entryOf li) hmem
  rw [hf] at hs
  exact Option.noConfusion hs

/-- Witness for C7 on a concrete list with one malformed and one
well-formed item: the malformed one vanishes, the other is kept. -/
theorem c7_malformed_item_witness :
    ((entryOf liNoStrong).field = none ∧ entryOf liNoStrong ∉ parse_field_changes ulC7) ∧
      parse_field_changes ulC7 = [⟨some "Priority", some "set", none, some "high"⟩] :=
  ⟨(c7_malformed_item ulC7).2 liNoStrong (by decide) (by decide), by decide⟩

/-- C8: the header interpreter is a total function into a record of three
optional fields; on a heading whose text matches neither the timestamp
pattern nor the author pattern and which carries no tagged children, all
three fields are absent — no exception path exists. -/
theorem c8_header_total (a : Attrs) (s : String)
    (h1 : tsSearch (getTextSep " " (pureH3 a s)) = none)
    (h2 : bySearch (getTextSep " " (pureH3 a s)) = none) :
    parse_change_header (pureH3 a s) =
      ⟨none, none, none, getTextSep " " (pureH3 a s)⟩ := by
  have hfind : ∀ p, (pureH3 a s).findFirst p = none := by
    intro p
    unfold Tag.findFirst pureH3
    simp [Dom.allTags]
  unfold parse_change_header
  simp [hfind, Option.orElse, h1, h2]

/-- Witness for C8 on a concrete fully malformed heading. -/
theorem c8_header_total_witness :
    parse_change_header (pureH3 attrsNone "hello world") =
      ⟨none, none, none, getTextSep " " (pureH3 attrsNone "hello world")⟩ :=
  c8_header_total attrsNone "hello world" (by decide) (by decide)

/-- A character list is clean in front when it is empty or starts with a
non-whitespace character. -/
def headOk (l : List Char) : Bool :=
  match l with
  | [] => true
  | c :: _ => !isWS c

/-- Dropping leading whitespace from a front-clean list changes nothing. -/
theorem dropWS_of_headOk (l : List Char) (h : headOk l = true) : dropWS l = l := by
  cases l with
  | nil => rfl
  | cons c t =>
    simp only [headOk, Bool.not_eq_true'] at h
    simp [dropWS, List.dropWhile_cons, h]

/-- Dropping leading whitespace leaves a front-clean list. -/
theorem headOk_dropWS (l : List Char) : headOk (dropWS l) = true := by
  induction l with
  | nil => rfl
  | cons c t ih =>
    by_cases h : isWS c = true
    · simpa [dropWS, List.dropWhile_cons, h] using ih
    · simp only [Bool.not_eq_true] at h
      simp [dropWS, List.dropWhile_cons, h, headOk]

/-- Front cleanliness restricts to a non-empty front factor. -/
theorem headOk_append_elim (a b : List Char) (ha : a ≠ []) (h : headOk (a ++ b) = true) :
    headOk a = true := by
  cases a with
  | nil => exact absurd rfl ha
  | cons c t => simpa [headOk] using h

/-- Front cleanliness of a non-empty front factor extends to the append. -/
theorem headOk_append_intro (a b : List Char) (ha : a ≠ []) (h : headOk a = true) :
    headOk (a ++ b) = true := by
  cases a with
  | nil => exact absurd rfl ha
  | cons c t => simpa [headOk] using h

/-- Dropping leading whitespace preserves back cleanliness. -/
theorem headOk_reverse_dropWS (m : List Char) (hm : headOk m.reverse = true) :
    headOk (dropWS m).reverse = true := by
  obtain ⟨t, ht⟩ := List.dropWhile_suffix (l := m) isWS
  cases hd : dropWS m with
  | nil => rfl
  | cons x r =>
    have ht' : t ++ (x :: r) = m := by
      rw [← hd]
      exact ht
    have hm' : headOk ((x :: r).reverse ++ t.reverse) = true := by
      rw [← List.reverse_append, ht']
      exact hm
    exact headOk_append_elim _ _ (by simp) hm'

/-- A list clean at both ends is a strip fixed point. -/
theorem stripChars_eq_self (l : List Char) (h1 : headOk l = true)
    (h2 : headOk l.reverse = true) : stripChars l = l := by
  unfold stripChars dropWSEnd
  rw [dropWS_of_headOk _ h2, List.reverse_reverse, dropWS_of_headOk _ h1]

/-- Stripping makes the front clean. -/
theorem stripChars_headOk (l : List Char) : headOk (stripChars l) = true :=
  headOk_dropWS _

/-- Stripping makes the back clean. -/
theorem stripChars_reverse_headOk (l : List Char) :
    headOk (stripChars l).reverse = true := by
  unfold stripChars
  apply headOk_reverse_dropWS
  unfold dropWSEnd
  rw [List.reverse_reverse]
  exact headOk_dropWS _

/-- Empty data means the empty string. -/
theorem data_eq_nil_iff (s : String) : s.data = [] ↔ s = "" := by
  constructor
  · intro h
    exact String.ext h
  · intro h
    rw [h]

/-- A newline join of non-empty strip-fixed pieces is clean at both ends
and empty only for an empty piece list. -/
theorem joinSep_clean (qs : List String)
    (h : ∀ q ∈ qs, q ≠ "" ∧ headOk q.data = true ∧ headOk q.data.reverse = true) :
    headOk (joinSep "\n" qs).data = true ∧ headOk (joinSep "\n" qs).data.reverse = true ∧
      (qs ≠ [] → (joinSep "\n" qs).data ≠ []) := by
  induction qs with
  | nil => exact ⟨rfl, rfl, fun h => absurd rfl h⟩
  | cons q r ih =>
    obtain ⟨hq, hq1, hq2⟩ := h q (by simp)
    have hqd : q.data ≠ [] := fun hd => hq ((data_eq_nil_iff q).mp hd)
    cases r with
    | nil =>
      refine ⟨hq1, hq2, fun _ => ?_⟩
      simpa [joinSep] using hqd
    | cons q2 r2 =>
      obtain ⟨ih1, ih2, ih3⟩ := ih (fun x hx => h x (by simp [hx]))
      have hjr : (joinSep "\n" (q2 :: r2)).data ≠ [] := ih3 (by simp)
      have hj : joinSep "\n" (q :: q2 :: r2) = q ++ "\n" ++ joinSep "\n" (q2 :: r2) := rfl
      have hjd : (joinSep "\n" (q :: q2 :: r2)).data
          = q.data ++ "\n".data ++ (joinSep "\n" (q2 :: r2)).data := by
        rw [hj, String.data_append, String.data_append]
      refine ⟨?_, ?_, fun _ => ?_⟩
      · rw [hjd, List.append_assoc]
        exact headOk_append_intro _ _ hqd hq1
      · rw [hjd]
        rw [List.reverse_append, List.reverse_append]
        rw [← List.append_assoc]
        apply headOk_append_intro
        · intro hc
          exact hjr (by simpa using congrArg List.reverse hc)
        · exact headOk_append_intro _ _ (by simpa using hjr) ih2
      · rw [hjd]
        simp [hqd]

/-- A string clean at both ends is its own strip fixed point. -/
theorem pyStrip_fix (s : String) (h1 : headOk s.data = true)
    (h2 : headOk s.data.reverse = true) : pyStrip s = s :=
  String.ext (stripChars_eq_self s.data h1 h2)

/-- The comment extraction output is its own strip fixed point. -/
theorem getTextSep_strip_fixed (g : Tag) :
    pyStrip (getTextSep "\n" g) = getTextSep "\n" g := by
  have h : ∀ q ∈ ((Dom.texts g.children).map pyStrip).filter (fun p => p != ""),
      q ≠ "" ∧ headOk q.data = true ∧ headOk q.data.reverse = true := by
    intro q hq
    obtain ⟨hmem, hne⟩ := List.mem_filter.mp hq
    obtain ⟨p, _, hp⟩ := List.mem_map.mp hmem
    refine ⟨by simpa [bne_iff_ne] using hne, ?_, ?_⟩
    · rw [← hp]
      exact stripChars_headOk _
    · rw [← hp]
      exact stripChars_reverse_headOk _
  obtain ⟨h1, h2, _⟩ := joinSep_clean _ h
  exact pyStrip_fix _ h1 h2

/-- C9: the comment extraction returns the comment region's stripped text
pieces joined by newlines (paragraph breaks become newline separators),
the result is its own strip fixed point (no leading or trailing
whitespace), and when no element carries the comment style token — even
among several markers — the result is the empty string, never an absent
value. -/
theorem c9_comment_text (block : Tag) :
    (block.findFirst isCommentDiv = none → (buildEvent block).comment = "") ∧
    (∀ d, block.findFirst isCommentDiv = some d →
      (buildEvent block).comment =
        joinSep "\n" (((Dom.texts d.children).map pyStrip).filter (fun p => p != ""))) ∧
    pyStrip ((buildEvent block).comment) = (buildEvent block).comment := by
  refine ⟨?_, ?_, ?_⟩
  · intro h
    simp [buildEvent, h]
  · intro d h
    simp [buildEvent, h, parse_comment_text, getTextSep]
  · cases h : block.findFirst isCommentDiv with
    | none => simp [buildEvent, h, pyStrip, stripChars, dropWSEnd, dropWS]
    | some d =>
      have hc : (buildEvent block).comment = getTextSep "\n" d := by
        simp [buildEvent, h, parse_comment_text]
      rw [hc]
      exact getTextSep_strip_fixed d

/-- Witness for C9 on a concrete two-paragraph comment region. -/
theorem c9_comment_text_witness :
    (buildEvent blockC9).comment =
      joinSep "\n" (((Dom.texts dC9.children).map pyStrip).filter (fun p => p != "")) ∧
      (buildEvent blockC9).comment = "Para one.\nPara two." :=
  ⟨(c9_comment_text blockC9).2.1 dC9 (by decide), by decide⟩

/-- C10 counterexample: a list item carrying a strong field-name marker
whose rendered text is empty, with zero em tokens and none of the verb
phrases, is dropped — no FieldChange is emitted for it. -/
theorem c10_markerless_counterexample :
    (liC10bad.findFirst (fun g => g.tag == "strong")).isSome = true ∧
      emTexts liC10bad = [] ∧
      strContains (liText liC10bad) "changed from" = false ∧
      strContains (liText liC10bad) "set to" = false ∧
      strContains (liText liC10bad) "deleted" = false ∧
      liC10bad ∈ lisOf ulC10bad ∧
      parse_field_changes ulC10bad = [] := by
  decide

/-- C10 amended: a list item whose strong field-name marker renders as
non-empty text, with zero em tokens and no verb phrase, is still kept —
the emitted FieldChange has action, old and new values all absent. -/
theorem c10_keep_markerless_values (li : Tag) (s : String)
    (hf : fieldNameOf li = some s) (hs : s ≠ "")
    (he : emTexts li = [])
    (h1 : strContains (liText li) "changed from" = false)
    (h2 : strContains (liText li) "set to" = false)
    (h3 : strContains (liText li) "deleted" = false) :
    entryOf li = ⟨some s, none, none, none⟩ ∧
      ∀ u : Tag, li ∈ lisOf u → entryOf li ∈ parse_field_changes u := by
  have hent : entryOf li = ⟨some s, none, none, none⟩ := by
    unfold entryOf
    rw [hf, he]
    simp [mkEntry, h1, h2, h3]
  refine ⟨hent, ?_⟩
  intro u hu
  rw [parse_field_changes_eq, List.mem_filter]
  refine ⟨List.mem_map_of_mem _ hu, ?_⟩
  rw [hent]
  simp [fieldTruthy, bne_iff_ne, hs]

/-- Witness for the amended C10 on a concrete marker-only item. -/
theorem c10_keep_markerless_values_witness :
    entryOf liC10ok = ⟨some "Status", none, none, none⟩ ∧
      entryOf liC10ok ∈ parse_field_changes ulC10ok :=
  ⟨(c10_keep_markerless_values liC10ok "Status" (by decide) (by decide) (by decide)
      (by decide) (by decide) (by decide)).1,
    (c10_keep_markerless_values liC10ok "Status" (by decide) (by decide) (by decide)
      (by decide) (by decide) (by decide)).2 ulC10ok (by decide)⟩
